import Mathlib

/-!
Verification of the butido build orchestrator core against its
natural-language specification.  The definitions below are shallow
embeddings of the Rust source:

* `env_pass_validator`   from src/cli.rs
* `tree_into_jobsets`    from src/job/set.rs
* `Endpoint.run_job`     from src/endpoint/configured.rs
* `Job.create`           from src/db/models/job.rs
* `JobTask.run` and `Orchestrator.run_tree` from src/orchestrator/orchestrator.rs

Machine-level effects (tokio channels, docker I/O, the database driver)
are represented by explicit inputs: the full contents of a task's input
channel, an oracle for the scheduler outcome, oracles for the docker
calls, the table contents of the `jobs` relation.
-/

namespace Butido

/-- Job uuids (`uuid::Uuid` in the source) are modelled as naturals. -/
abbrev Uuid := Nat

/-- `anyhow::Error` is opaque in the source; modelled as its message. -/
abbrev JError := String

/-- An artifact reference (`crate::filestore::Artifact`): a path. -/
structure Artifact where
  path : String
deriving DecidableEq, Repr

/-- `HashMap<Uuid, Vec<Artifact>>` modelled as an association list. -/
abbrev ArtMap := List (Uuid × List Artifact)

/-- `HashMap<Uuid, Error>` modelled as an association list. -/
abbrev ErrMap := List (Uuid × JError)

/-- `HashMap::insert`: replace the value at an existing key, else append. -/
def mapInsert {α : Type} (m : List (Uuid × α)) (k : Uuid) (v : α) :
    List (Uuid × α) :=
  if m.any (fun p => p.1 == k) then
    m.map (fun p => if p.1 == k then (k, v) else p)
  else
    m ++ [(k, v)]

/-- `HashMap::extend`: insert every pair of `new`, replacing on collision. -/
def mapExtend {α : Type} (m new : List (Uuid × α)) : List (Uuid × α) :=
  new.foldl (fun acc p => mapInsert acc p.1 p.2) m

/-- Key membership test (`map.keys().any(|id| id == k)`). -/
def hasKey {α : Type} (m : List (Uuid × α)) (k : Uuid) : Bool :=
  m.any (fun p => p.1 == k)

/-! ## Environment-variable pass-through validator (src/cli.rs)

`env_pass_validator(s)` splits `s` on `"="`; with exactly two parts it
checks both for whitespace; with one part it looks the name up in the
ambient environment; otherwise it rejects.  The ambient environment is
passed explicitly as a lookup function (`std::env::var`; `none` models
`VarError::NotPresent`; Lean strings are always unicode, so the
`NotUnicode` branch of the source cannot fire in the model). -/

/-- Whitespace test used by the validator: `c == ' ' || c == '\t' || c == '\n'`. -/
def isBadEnvChar (c : Char) : Bool :=
  c == ' ' || c == '\t' || c == '\n'

/-- Rust's `str::split` on a one-character separator, on character
lists: `""` yields `[""]`, separators at the ends yield empty parts. -/
def splitCharList (sep : Char) : List Char → List (List Char)
  | [] => [[]]
  | c :: rest =>
    let r := splitCharList sep rest
    if c == sep then [] :: r
    else
      match r with
      | [] => [[c]]
      | g :: gs => (c :: g) :: gs

/-- Shallow embedding of `env_pass_validator` from src/cli.rs.  The
split on `"="` operates on the string's character list so that
every branch computes.  `env` is `std::env::var`; `none` models
`VarError::NotPresent` (Lean strings are always unicode, so the
`NotUnicode` branch of the source cannot fire in the model). -/
def env_pass_validator (env : String → Option String) (s : String) :
    Except String Unit :=
  let v := splitCharList '=' s.toList
  if v.length ≠ 2 then
    if v.length == 1 then
      match v.get? 0 with
      | some nameCs =>
        let name := String.mk nameCs
        match env name with
        | none => .error ("Environment variable '" ++ name ++ "' not present")
        | some _ => .ok ()
      | none => .error "BUG"
    else
      .error ("Expected a 'key=value' string, got something different: '" ++ s ++ "'")
  else
    match v.get? 0 with
    | none => .error ("No key found in '" ++ s ++ "'")
    | some key =>
      if key.any isBadEnvChar then
        .error ("Invalid characters found in key: '" ++ s ++ "'")
      else
        match v.get? 1 with
        | none => .error ("No value found in '" ++ s ++ "'")
        | some value =>
          if value.any isBadEnvChar then
            .error ("Invalid characters found in value: '" ++ s ++ "'")
          else
            .ok ()

/-- Acceptance: the validator returned `Ok(())`. -/
def envAccepts (env : String → Option String) (s : String) : Bool :=
  match env_pass_validator env s with
  | .ok _ => true
  | .error _ => false

/-! ## Job sets from a package tree (src/job/set.rs)

A `Tree` iterates as a sequence of `(Package, subtree)` pairs.  The
sequence is encoded in cons-cell form: `Tree.cons p dep rest` is the
entry `(p, dep)` followed by the remaining entries `rest`; `Tree.nil`
ends the sequence.  `Job::new` draws a fresh uuid; the uuid plays no
role in the claims about `tree_into_jobsets`, so a `Job` is modelled by
its package, image and phase list. -/

structure Package where
  name : String
  version : String
deriving DecidableEq, Repr

structure ImageName where
  img : String
deriving DecidableEq, Repr

structure PhaseName where
  phase : String
deriving DecidableEq, Repr

/-- A package dependency tree: a list of `(package, dependency-subtree)`
entries in cons-cell form. -/
inductive Tree where
  | nil : Tree
  | cons (p : Package) (dep : Tree) (rest : Tree) : Tree
deriving DecidableEq, Repr

/-- `Job::new(package, image, phases)` (uuid omitted, see above). -/
structure Job where
  package : Package
  image : ImageName
  phases : List PhaseName
deriving DecidableEq, Repr

/-- A set of jobs that could theoretically be run in parallel. -/
structure JobSet where
  set : List Job
deriving DecidableEq, Repr

/-- The body of `tree_into_jobsets::inner`: walking the entries of one
tree, it returns the accumulated `sets` (all jobsets produced by the
recursive calls on dependency subtrees, in entry order) and
`current_set` (the packages at this level, in entry order).  For each
entry the recursive result on the subtree is post-processed exactly as
the source does: the subtree's level jobset is prepended to its
recursive sets when — due to the inverted `is_empty` check in the
source — that jobset `.set.isEmpty`. -/
def innerWalk (image : ImageName) (phases : List PhaseName) :
    Tree → List JobSet × List Package
  | .nil => ([], [])
  | .cons p dep rest =>
    let depWalk := innerWalk image phases dep
    let depJobset : JobSet :=
      ⟨depWalk.2.map (fun pkg => Job.mk pkg image phases)⟩
    let subSets :=
      (if depJobset.set.isEmpty then [depJobset] else []) ++ depWalk.1
    let restWalk := innerWalk image phases rest
    (subSets ++ restWalk.1, p :: restWalk.2)

/-- Shallow embedding of `tree_into_jobsets` from src/job/set.rs: run
`inner` on the whole tree (producing the top-level jobset, kept only
when `.set.isEmpty` — the source's inverted check — followed by the
recursive sets) and reverse the result. -/
def tree_into_jobsets (tree : Tree) (image : ImageName)
    (phases : List PhaseName) : List JobSet :=
  let walk := innerWalk image phases tree
  let jobset : JobSet := ⟨walk.2.map (fun pkg => Job.mk pkg image phases)⟩
  ((if jobset.set.isEmpty then [jobset] else []) ++ walk.1).reverse

/-- `JobSet::sets_from_tree` forwards to `tree_into_jobsets`. -/
def JobSet.sets_from_tree (t : Tree) (image : ImageName)
    (phases : List PhaseName) : List JobSet :=
  tree_into_jobsets t image phases

/-- Number of package nodes in a tree. -/
def Tree.nodeCount : Tree → Nat
  | .nil => 0
  | .cons _ dep rest => 1 + dep.nodeCount + rest.nodeCount

/-- Total number of jobs across a list of jobsets. -/
def totalJobs (sets : List JobSet) : Nat :=
  (sets.map (fun js => js.set.length)).sum

/-! ## Job persistence (src/db/models/job.rs)

The `jobs` table is modelled as the list of its rows (`uuid` is UNIQUE
by the schema; the auto-generated serial `id` is irrelevant to the
claims and omitted).  `Job::create` issues
`INSERT … ON CONFLICT DO NOTHING` followed by
`SELECT … WHERE uuid = ? LIMIT 1`. -/

structure JobRow where
  submit_id : Int
  endpoint_id : Int
  package_id : Int
  image_id : Int
  container_hash : String
  script_text : String
  log_text : String
  uuid : Uuid
deriving DecidableEq, Repr

/-- Shallow embedding of `Job::create`: the insert adds the row unless a
row with the same `uuid` already exists (the `ON CONFLICT (uuid) DO
NOTHING` path of the unique index); the subsequent select returns the
first row with that uuid, or the "Finding created job" error when none
exists.  Returns the updated table together with the query result. -/
def Job.create (db : List JobRow) (new_job : JobRow) :
    List JobRow × Except String JobRow :=
  let db2 :=
    if db.any (fun r => r.uuid == new_job.uuid) then db else db ++ [new_job]
  match db2.find? (fun r => r.uuid == new_job.uuid) with
  | some row => (db2, .ok row)
  | none => (db2, .error "Finding created job in database")

/-- Number of rows of the table carrying a given uuid. -/
def uuidCount (db : List JobRow) (u : Uuid) : Nat :=
  db.countP (fun r => r.uuid == u)

/-! ## Endpoint::run_job (src/endpoint/configured.rs)

The docker interactions are oracles: the container-create call, the
script copy-in, the exec output stream (a list of already-parsed log
items, each possibly an error — stream/parse/send errors abort the
collection), and the staging-store tar ingestion which yields the staged
paths.  The script's exit status is carried as an explicit input to make
the control flow of the source checkable: no branch of `run_job` reads
it. -/

inductive JobResource where
  | environment (k v : String) : JobResource
  | artifact (a : Artifact) : JobResource
deriving DecidableEq, Repr

structure RunnableJob where
  image : ImageName
  script : String
  resources : List JobResource
deriving DecidableEq, Repr

/-- The env list built at the top of `run_job`:
`resources().iter().filter_map(Environment(k,v) => "k=v", Artifact(_) => None)`. -/
def envAssembly (resources : List JobResource) : List String :=
  resources.filterMap (fun r =>
    match r with
    | .environment k v => some (k ++ "=" ++ v)
    | .artifact _ => none)

/-- Collect the exec output stream as the source's
`.collect::<Result<Vec<_>>>()` does: log items already forwarded to the
log sink stay forwarded, and the first erroneous stream item aborts with
that error. -/
def collectLines : List (Except JError String) →
    List String × Except JError Unit
  | [] => ([], .ok ())
  | .error e :: _ => ([], .error e)
  | .ok l :: rest =>
    let r := collectLines rest
    (l :: r.1, r.2)

/-- Everything observable about one `run_job` call: the env list handed
to container create, the log items sent to `logsink`, and the returned
value. -/
structure RunJobOutput where
  envs : List String
  logSink : List String
  result : Except JError (List String)
deriving Repr

/-- Shallow embedding of `Endpoint::run_job`.  `createResult` is the
docker container-create call (the container id on success; warnings are
recorded but never acted on in the source), `copyResult` the script
copy-in, `execLines` the parsed exec output stream, `exitCode` the exit
status of the executed script, `stagingResult` the outcome of
`write_files_from_tar_stream` (the staged paths).  The source returns
the staged paths directly; `exitCode` is never consulted. -/
def Endpoint.run_job (job : RunnableJob)
    (createResult : Except JError String)
    (copyResult : Except JError Unit)
    (execLines : List (Except JError String))
    (_exitCode : Nat)
    (stagingResult : Except JError (List String)) : RunJobOutput :=
  let envs := envAssembly job.resources
  match createResult with
  | .error e => { envs := envs, logSink := [], result := .error e }
  | .ok _container_id =>
    match copyResult with
    | .error e => { envs := envs, logSink := [], result := .error e }
    | .ok _ =>
      let collected := collectLines execLines
      match collected.2 with
      | .error e => { envs := envs, logSink := collected.1, result := .error e }
      | .ok _ =>
        { envs := envs, logSink := collected.1, result := stagingResult }

/-! ## JobTask (src/orchestrator/orchestrator.rs)

A task's input channel is modelled by the list of messages it will
deliver before closing; `recv()` yields them in order and then `None`
forever.  `JobResult = Result<HashMap<Uuid, Vec<Artifact>>,
HashMap<Uuid, Error>>`. -/

/-- The message type flowing between job tasks. -/
abbrev JobResult := Except ErrMap ArtMap

/-- Decidable equality on `Except`, needed to evaluate concrete task
outputs. -/
instance instDecEqExcept {ε α : Type} [DecidableEq ε] [DecidableEq α] :
    DecidableEq (Except ε α)
  | .error a, .error b =>
    if h : a = b then isTrue (by rw [h])
    else isFalse (fun hh => h (Except.error.inj hh))
  | .error _, .ok _ => isFalse (fun hh => Except.noConfusion hh)
  | .ok _, .error _ => isFalse (fun hh => Except.noConfusion hh)
  | .ok a, .ok b =>
    if h : a = b then isTrue (by rw [h])
    else isFalse (fun hh => h (Except.ok.inj hh))

/-- `JobDefinition`: the job's uuid and its dependency uuids (package
name/version only feed progress-bar text). -/
structure JobDefinition where
  uuid : Uuid
  dependencies : List Uuid
deriving DecidableEq, Repr

/-- The two accumulators of `JobTask::run`: `received_dependencies` and
`received_errors`. -/
structure TaskState where
  deps : ArtMap
  errs : ErrMap
deriving DecidableEq, Repr

/-- The helper `all_dependencies_are_in` of `JobTask::run`. -/
def all_dependencies_are_in (dependency_uuids : List Uuid) (list : ArtMap) :
    Bool :=
  dependency_uuids.all (fun dependency_uuid => hasKey list dependency_uuid)

/-- Dependencies listed by the job definition but absent from the
received map (computed in `perform_receive` on channel close). -/
def missingDeps (jd : JobDefinition) (st : TaskState) : List Uuid :=
  jd.dependencies.filter (fun d => ¬ hasKey st.deps d)

/-- How the collect loop of `JobTask::run` (the `while
!all_dependencies_are_in(…)` loop) can end. -/
inductive CollectOutcome where
  | shortCircuit (errs : ErrMap) (rest : List JobResult) : CollectOutcome
  | closedMissing (missing : List Uuid) : CollectOutcome
  | proceed (st : TaskState) (rest : List JobResult) : CollectOutcome
deriving DecidableEq, Repr

/-- The collect loop of `JobTask::run`.  While some dependency is not
covered: receive; on `Ok(v)` extend `received_dependencies`, on
`Err(e)` extend `received_errors`; after the receive, if
`received_errors` is non-empty, send it to one parent and stop
(`shortCircuit`).  When the channel closes, `perform_receive` errors
with the missing dependencies (`closedMissing`) unless none are missing
(then the loop breaks).  When all dependencies are covered the loop
exits with the remaining channel content (`proceed`). -/
def collectLoop (jd : JobDefinition) (st : TaskState) :
    List JobResult → CollectOutcome
  | [] =>
    if all_dependencies_are_in jd.dependencies st.deps then
      .proceed st []
    else
      let missing := missingDeps jd st
      if missing.isEmpty then .proceed st [] else .closedMissing missing
  | msg :: rest =>
    if all_dependencies_are_in jd.dependencies st.deps then
      .proceed st (msg :: rest)
    else
      match msg with
      | .ok v =>
        let st2 : TaskState := { st with deps := mapExtend st.deps v }
        if st2.errs.isEmpty then collectLoop jd st2 rest
        else .shortCircuit st2.errs rest
      | .error e =>
        let st2 : TaskState := { st with errs := mapExtend st.errs e }
        if st2.errs.isEmpty then collectLoop jd st2 rest
        else .shortCircuit st2.errs rest

/-- The drain loop (`while self.perform_receive(…)` after the collect
loop): keep receiving and merging until the channel closes; at close,
`perform_receive` still errors when dependencies are missing. -/
def drainLoop (jd : JobDefinition) (st : TaskState) :
    List JobResult → Except (List Uuid) TaskState
  | [] =>
    let missing := missingDeps jd st
    if missing.isEmpty then .ok st else .error missing
  | .ok v :: rest => drainLoop jd { st with deps := mapExtend st.deps v } rest
  | .error e :: rest =>
    drainLoop jd { st with errs := mapExtend st.errs e } rest

/-- Everything observable about one `JobTask::run` call: the messages
sent downstream (paired with the index of the sender used), whether the
job was handed to the scheduler, and the task's return value. -/
structure RunOutput where
  sends : List (Nat × JobResult)
  scheduled : Bool
  result : Except String Unit
deriving DecidableEq, Repr

/-- Shallow embedding of `JobTask::run`.  `nSenders` is the length of
the downstream sender vector, `msgs` the channel content,
`prepResult` the outcome of `RunnableJob::build_from_job` plus the
`schedule_job` call itself (both propagate errors with `?` before the
job runs), `schedResult` the outcome of `ScheduledJob::run()`.  On
a collect-loop short circuit the error map goes to `sender[0]` only; on
a scheduler error, `{job_uuid: e}` goes to `sender[0]`; on success the
job's artifacts are inserted into `received_dependencies` and a clone of
the whole map goes to every sender. -/
def JobTask.run (jd : JobDefinition) (nSenders : Nat)
    (msgs : List JobResult) (prepResult : Except String Unit)
    (schedResult : Except JError (List Artifact)) : RunOutput :=
  match collectLoop jd { deps := [], errs := [] } msgs with
  | .shortCircuit errs _rest =>
    { sends := [(0, .error errs)], scheduled := false, result := .ok () }
  | .closedMissing _missing =>
    { sends := [], scheduled := false,
      result := .error "Childs finished, but dependencies still missing" }
  | .proceed st rest =>
    match drainLoop jd st rest with
    | .error _missing =>
      { sends := [], scheduled := false,
        result := .error "Childs finished, but dependencies still missing" }
    | .ok st2 =>
      match prepResult with
      | .error e => { sends := [], scheduled := false, result := .error e }
      | .ok _ =>
        match schedResult with
        | .error e =>
          { sends := [(0, .error [(jd.uuid, e)])], scheduled := true,
            result := .ok () }
        | .ok artifacts =>
          let received2 := mapInsert st2.deps jd.uuid artifacts
          { sends := (List.range nSenders).map (fun i => (i, .ok received2)),
            scheduled := true, result := .ok () }

/-- The accumulator state right before the build phase (after collect
and drain), when that point is reached. -/
def JobTask.finalState (jd : JobDefinition) (msgs : List JobResult) :
    Option TaskState :=
  match collectLoop jd { deps := [], errs := [] } msgs with
  | .proceed st rest =>
    match drainLoop jd st rest with
    | .ok st2 => some st2
    | .error _ => none
  | _ => none

/-! ## Orchestrator::run_tree (src/orchestrator/orchestrator.rs)

The mesh construction only needs the job definitions: node `j`'s
downstream senders are the senders of every job whose dependency set
contains `j`'s uuid; the root is the first node with no such job.  The
spawned tasks and the multibar are summarized by two oracles: the
joined result of all `JobTask::run` futures (`tasksResult`, checked with
`?` before the root receive) and the single message received on the
root channel (`rootMsg`; `none` models a closed channel). -/

/-- The jobs whose dependency sets contain `u` (their senders become
`u`'s downstream senders). -/
def downstreamOf (jobs : List JobDefinition) (u : Uuid) :
    List JobDefinition :=
  jobs.filter (fun j => j.dependencies.contains u)

/-- The root search of `run_tree`: the first job no other job depends
on (its sender vector stayed `None`). -/
def findRoot (jobs : List JobDefinition) : Option JobDefinition :=
  jobs.find? (fun j => (downstreamOf jobs j.uuid).isEmpty)

/-- `results.into_iter().map(|tpl| tpl.1.into_iter()).flatten().collect()`. -/
def flattenValues (m : ArtMap) : List Artifact :=
  (m.map (fun p => p.2)).flatten

/-- The final `match root_receiver.recv().await` of `run_tree`. -/
def handleRootResult (msg : Option JobResult) :
    Except String (List Artifact × ErrMap) :=
  match msg with
  | none => .error "No result received..."
  | some (.ok results) => .ok (flattenValues results, [])
  | some (.error errors) => .ok ([], errors)

/-- Shallow embedding of `Orchestrator::run_tree`: find the root (else
fail with "Failed to find root task" before any task is spawned), then
propagate a task failure (`jobs_result?`), then handle the single root
message. -/
def Orchestrator.run_tree (jobs : List JobDefinition)
    (tasksResult : Except String Unit) (rootMsg : Option JobResult) :
    Except String (List Artifact × ErrMap) :=
  match findRoot jobs with
  | none => .error "Failed to find root task"
  | some _root =>
    match tasksResult with
    | .error e => .error e
    | .ok _ => handleRootResult rootMsg

/-! # Theorems -/

/-- Claim C8: the environment-variable pass-through validator accepts the
string "A=B"; accepts the bare string "A" iff the variable A is present
in the ambient environment; rejects "A= "; and rejects "A=B=C". -/
theorem env_pass_validator_cases (env : String → Option String) :
    envAccepts env "A=B" = true
    ∧ (envAccepts env "A" = true ↔ (env "A").isSome = true)
    ∧ envAccepts env "A= " = false
    ∧ envAccepts env "A=B=C" = false := by
  refine ⟨rfl, ?_, rfl, rfl⟩
  have hred : env_pass_validator env "A" =
      (match env "A" with
       | none => Except.error ("Environment variable '" ++ "A" ++ "' not present")
       | some _ => Except.ok ()) := rfl
  unfold envAccepts
  rw [hred]
  cases env "A" <;> simp

/-- Claim C9 counterexample: the validator accepts the argument "BAD="
(with an ambient environment that defines nothing), contrary to the
claim that a KEY= form with an empty value is rejected at parse time. -/
theorem env_pass_validator_accepts_trailing_eq :
    envAccepts (fun _ => none) "BAD=" = true := by decide

/-- Claim C9 (amended): the validator accepts "BAD=" under every ambient
environment: the split yields the key "BAD" and an empty value, and an
empty value contains no whitespace character, so the KEY=VALUE branch
accepts. -/
theorem env_pass_validator_trailing_eq (env : String → Option String) :
    envAccepts env "BAD=" = true := rfl

/-- Claim C5: the code drops every non-empty jobset.  On the
single-package tree of the repository's own unit test
(`test_one_element_tree_to_jobsets`: package a@1 with no dependencies)
the returned list is one jobset with an empty job list, although the
tree has one package node — the inverted `is_empty` check in
`tree_into_jobsets` keeps a jobset only when it is empty, so the job for
package a is created in no jobset at all. -/
theorem sets_from_tree_loses_the_only_job :
    JobSet.sets_from_tree (Tree.cons ⟨"a", "1"⟩ Tree.nil Tree.nil)
        ⟨"test"⟩ [⟨"testphase"⟩] = [⟨[]⟩]
    ∧ totalJobs (JobSet.sets_from_tree (Tree.cons ⟨"a", "1"⟩ Tree.nil Tree.nil)
        ⟨"test"⟩ [⟨"testphase"⟩]) = 0
    ∧ Tree.nodeCount (Tree.cons ⟨"a", "1"⟩ Tree.nil Tree.nil) = 1 := by
  refine ⟨rfl, rfl, rfl⟩

/-- Helper: `find?` skips over a prefix in which nothing matches. -/
theorem find?_append_of_none {α : Type} (p : α → Bool) (l₁ l₂ : List α)
    (h : l₁.find? p = none) : (l₁ ++ l₂).find? p = l₂.find? p := by
  induction l₁ with
  | nil => simp
  | cons a t ih =>
    cases hpa : p a with
    | true =>
      rw [List.find?_cons_of_pos _ hpa] at h
      exact Option.noConfusion h
    | false =>
      have hneg : ¬ p a = true := by simp [hpa]
      rw [List.find?_cons_of_neg _ hneg] at h
      rw [List.cons_append, List.find?_cons_of_neg _ hneg]
      exact ih h

/-- Claim C7: `Job::create` is idempotent on the job uuid.  Starting
from a table honouring the unique index on `uuid` (at most one row with
the uuid), inserting twice with the same uuid — `INSERT … ON CONFLICT DO
NOTHING` followed by `SELECT … WHERE uuid = ?` each time — leaves at
most one row with that uuid, and both calls return that same row. -/
theorem job_create_idempotent (db : List JobRow) (j1 j2 : JobRow)
    (huuid : j1.uuid = j2.uuid) (hunique : uuidCount db j1.uuid ≤ 1) :
    uuidCount (Job.create (Job.create db j1).1 j2).1 j1.uuid ≤ 1
    ∧ ∃ row, (Job.create db j1).2 = .ok row
        ∧ (Job.create (Job.create db j1).1 j2).2 = .ok row := by
  unfold uuidCount at hunique
  unfold Job.create uuidCount
  simp only [← huuid]
  by_cases hany : db.any (fun r => r.uuid == j1.uuid) = true
  · -- a row with the uuid already exists: both inserts are no-ops
    obtain ⟨x, hx, hpx⟩ := List.any_eq_true.mp hany
    cases hfind : db.find? (fun r => r.uuid == j1.uuid) with
    | none => exact absurd hpx (List.find?_eq_none.mp hfind x hx)
    | some row =>
      simp only [hany, if_true, hfind]
      exact ⟨hunique, row, rfl, rfl⟩
  · -- no row yet: the first call inserts, the second is a no-op
    have hanyf : db.any (fun r => r.uuid == j1.uuid) = false :=
      Bool.eq_false_iff.mpr hany
    have hnone : db.find? (fun r => r.uuid == j1.uuid) = none :=
      List.find?_eq_none.mpr (fun x hx =>
        List.any_eq_false.mp hanyf x hx)
    have hself : (j1.uuid == j1.uuid) = true := beq_self_eq_true _
    have hfind1 : (db ++ [j1]).find? (fun r => r.uuid == j1.uuid) = some j1 := by
      rw [find?_append_of_none _ _ _ hnone]
      exact List.find?_cons_of_pos _ hself
    have hany2 : (db ++ [j1]).any (fun r => r.uuid == j1.uuid) = true := by
      rw [List.any_append, hanyf]
      simp [hself]
    have hcount0 : db.countP (fun r => r.uuid == j1.uuid) = 0 :=
      List.countP_eq_zero.mpr (fun x hx =>
        List.any_eq_false.mp hanyf x hx)
    have hcount1 : (db ++ [j1]).countP (fun r => r.uuid == j1.uuid) = 1 := by
      rw [List.countP_append, hcount0]
      simp [List.countP_cons, hself]
    simp only [hanyf, if_false, Bool.false_eq_true, hfind1, hany2, if_true]
    exact ⟨le_of_eq hcount1, j1, rfl, rfl⟩

/-- Witness for `job_create_idempotent` on a concrete table and row. -/
theorem job_create_idempotent_witness :
    uuidCount (Job.create (Job.create []
        ⟨1, 1, 1, 1, "hash", "script", "log", 7⟩).1
        ⟨1, 1, 1, 1, "hash", "script", "log", 7⟩).1
        (JobRow.mk 1 1 1 1 "hash" "script" "log" 7).uuid ≤ 1
    ∧ ∃ row, (Job.create [] ⟨1, 1, 1, 1, "hash", "script", "log", 7⟩).2 = .ok row
        ∧ (Job.create (Job.create []
            ⟨1, 1, 1, 1, "hash", "script", "log", 7⟩).1
            ⟨1, 1, 1, 1, "hash", "script", "log", 7⟩).2 = .ok row :=
  job_create_idempotent [] ⟨1, 1, 1, 1, "hash", "script", "log", 7⟩
    ⟨1, 1, 1, 1, "hash", "script", "log", 7⟩ rfl (by decide)

/-- Claim C4 counterexample: `Endpoint::run_job` succeeds with the
staged paths although the executed script exited with status 1 — the
source never inspects the exit status and contains no
`JobExecFailed` path. -/
theorem run_job_succeeds_on_nonzero_exit :
    (Endpoint.run_job ⟨⟨"img"⟩, "scriptText", []⟩ (.ok "container0")
        (.ok ()) [] 1 (.ok ["out/pkg.tar"])).result = .ok ["out/pkg.tar"] := by
  decide

/-- Claim C4 (amended): `Endpoint::run_job` is entirely independent of
the script's exit status, and whenever container creation, the script
copy-in, the collection of the exec output stream and the staging-store
tar ingestion all succeed, it returns exactly the staged paths (with the
collected log items forwarded to the log sink). -/
theorem run_job_ignores_exit_status (job : RunnableJob)
    (createResult : Except JError String) (copyResult : Except JError Unit)
    (execLines : List (Except JError String)) (e1 e2 : Nat)
    (stagingResult : Except JError (List String)) (cid : String)
    (sent : List String) (paths : List String)
    (hcollect : collectLines execLines = (sent, Except.ok ())) :
    Endpoint.run_job job createResult copyResult execLines e1 stagingResult
      = Endpoint.run_job job createResult copyResult execLines e2 stagingResult
    ∧ Endpoint.run_job job (.ok cid) (.ok ()) execLines e1 (.ok paths)
      = { envs := envAssembly job.resources, logSink := sent,
          result := .ok paths } := by
  constructor
  · rfl
  · unfold Endpoint.run_job
    rw [hcollect]

/-- Witness for `run_job_ignores_exit_status` at concrete inputs. -/
theorem run_job_ignores_exit_status_witness :
    Endpoint.run_job ⟨⟨"img"⟩, "s", []⟩ (.ok "c") (.ok ())
        [.ok "line1"] 0 (.ok ["p"])
      = Endpoint.run_job ⟨⟨"img"⟩, "s", []⟩ (.ok "c") (.ok ())
        [.ok "line1"] 137 (.ok ["p"])
    ∧ Endpoint.run_job ⟨⟨"img"⟩, "s", []⟩ (.ok "c") (.ok ())
        [.ok "line1"] 0 (.ok ["p"])
      = { envs := envAssembly (RunnableJob.mk ⟨"img"⟩ "s" []).resources,
          logSink := ["line1"], result := .ok ["p"] } :=
  run_job_ignores_exit_status ⟨⟨"img"⟩, "s", []⟩ (.ok "c") (.ok ())
    [.ok "line1"] 0 137 (.ok ["p"]) "c" ["line1"] ["p"] rfl

/-- Claim C6 counterexample: with one `Environment("A","B")` resource
and one `Artifact("dep.tar")` resource, the container environment list
is just `["A=B"]` — the artifact resource is filtered out
(`Artifact(_) => None`) and contributes no entry, contrary to the claim
that resolved dependency artifacts are part of the environment list. -/
theorem run_job_env_omits_artifacts :
    (Endpoint.run_job ⟨⟨"img"⟩, "s",
        [JobResource.environment "A" "B", JobResource.artifact ⟨"dep.tar"⟩]⟩
        (.ok "c") (.ok ()) [] 0 (.ok [])).envs = ["A=B"] := by
  decide

/-- Claim C6 (amended): `Endpoint::run_job` assembles the container
environment list from only the `Environment(k,v)` entries of the
runnable's resources, each formatted `k=v`; `Artifact` resources are
filtered out.  Every environment resource yields its entry, and every
entry comes from an environment resource. -/
theorem run_job_env_assembly (job : RunnableJob)
    (createResult : Except JError String) (copyResult : Except JError Unit)
    (execLines : List (Except JError String)) (exitCode : Nat)
    (stagingResult : Except JError (List String)) :
    (Endpoint.run_job job createResult copyResult execLines exitCode
        stagingResult).envs = envAssembly job.resources
    ∧ (∀ k v, JobResource.environment k v ∈ job.resources →
        (k ++ "=" ++ v) ∈ (Endpoint.run_job job createResult copyResult
          execLines exitCode stagingResult).envs)
    ∧ (∀ s ∈ (Endpoint.run_job job createResult copyResult execLines
          exitCode stagingResult).envs,
        ∃ k v, JobResource.environment k v ∈ job.resources
          ∧ s = k ++ "=" ++ v) := by
  have henvs : (Endpoint.run_job job createResult copyResult execLines
      exitCode stagingResult).envs = envAssembly job.resources := by
    unfold Endpoint.run_job
    cases createResult with
    | error e => rfl
    | ok cid =>
      cases copyResult with
      | error e => rfl
      | ok u =>
        cases hc : (collectLines execLines).2 with
        | error e => simp [hc]
        | ok u2 => simp [hc]
  refine ⟨henvs, ?_, ?_⟩
  · intro k v hmem
    rw [henvs]
    unfold envAssembly
    exact List.mem_filterMap.mpr ⟨JobResource.environment k v, hmem, rfl⟩
  · intro s hs
    rw [henvs] at hs
    unfold envAssembly at hs
    obtain ⟨r, hr, heq⟩ := List.mem_filterMap.mp hs
    cases r with
    | environment k v =>
      exact ⟨k, v, hr, (Option.some.inj heq).symm⟩
    | artifact a => exact Option.noConfusion heq

/-- Claim C1: provided a root task exists and all spawned tasks joined
without error, the pair returned by `run_tree` is determined by the
single root-sink message: `Ok(map)` yields the concatenation of the
map's artifact value lists with an empty error map, `Err(errs)` yields
an empty artifact list with `errs`, and a root channel that closes with
no message yields the `NoRootResult` error ("No result received..."). -/
theorem run_tree_root_message (jobs : List JobDefinition)
    (r : JobDefinition) (hroot : findRoot jobs = some r)
    (m : ArtMap) (errs : ErrMap) :
    Orchestrator.run_tree jobs (.ok ()) (some (.ok m))
      = .ok (flattenValues m, [])
    ∧ Orchestrator.run_tree jobs (.ok ()) (some (.error errs))
      = .ok ([], errs)
    ∧ Orchestrator.run_tree jobs (.ok ()) none
      = .error "No result received..." := by
  unfold Orchestrator.run_tree
  rw [hroot]
  exact ⟨rfl, rfl, rfl⟩

/-- Witness for `run_tree_root_message` on a one-job dag. -/
theorem run_tree_root_message_witness :
    Orchestrator.run_tree [⟨1, []⟩] (.ok ()) (some (.ok [(1, [⟨"a"⟩])]))
      = .ok ([⟨"a"⟩], [])
    ∧ Orchestrator.run_tree [⟨1, []⟩] (.ok ()) (some (.error [(2, "boom")]))
      = .ok ([], [(2, "boom")])
    ∧ Orchestrator.run_tree [⟨1, []⟩] (.ok ()) none
      = .error "No result received..." :=
  run_tree_root_message [⟨1, []⟩] ⟨1, []⟩ rfl [(1, [⟨"a"⟩])] [(2, "boom")]

/-- Claim C10: when every job's uuid occurs in some job's dependency
set, no node has an empty downstream set, the root search fails, and
`run_tree` returns the "Failed to find root task" error — independently
of how the tasks or the root channel would have behaved, since the
failure happens before any task is constructed or spawned. -/
theorem run_tree_no_root (jobs : List JobDefinition)
    (h : ∀ j ∈ jobs, ∃ k ∈ jobs, j.uuid ∈ k.dependencies)
    (tasksResult : Except String Unit) (rootMsg : Option JobResult) :
    Orchestrator.run_tree jobs tasksResult rootMsg
      = .error "Failed to find root task" := by
  have hfind : findRoot jobs = none := by
    unfold findRoot
    rw [List.find?_eq_none]
    intro j hj hb
    obtain ⟨k, hk, hdep⟩ := h j hj
    have hkmem : k ∈ downstreamOf jobs j.uuid := by
      unfold downstreamOf
      exact List.mem_filter.mpr ⟨hk, List.elem_eq_true_of_mem hdep⟩
    rw [List.isEmpty_iff] at hb
    rw [hb] at hkmem
    exact List.not_mem_nil k hkmem
  unfold Orchestrator.run_tree
  rw [hfind]

/-- Witness for `run_tree_no_root` on a two-job dependency cycle. -/
theorem run_tree_no_root_witness :
    Orchestrator.run_tree [⟨1, [2]⟩, ⟨2, [1]⟩] (.ok ()) none
      = .error "Failed to find root task" :=
  run_tree_no_root [⟨1, [2]⟩, ⟨2, [1]⟩] (by decide) (.ok ()) none

/-- Claim C2: whenever the collect and drain phases complete and the
scheduled job succeeds with an artifact list, `JobTask::run` inserts
`(job uuid, artifacts)` into the accumulated received-artifacts map and
sends a clone of the full accumulated map, wrapped in `Ok`, to every
one of its downstream senders. -/
theorem jobtask_success_fanout (jd : JobDefinition) (nSenders : Nat)
    (msgs : List JobResult) (st : TaskState) (rest : List JobResult)
    (st2 : TaskState) (artifacts : List Artifact)
    (hcollect : collectLoop jd ⟨[], []⟩ msgs = .proceed st rest)
    (hdrain : drainLoop jd st rest = .ok st2) :
    JobTask.run jd nSenders msgs (.ok ()) (.ok artifacts) =
      { sends := (List.range nSenders).map
          (fun i => (i, Except.ok (mapInsert st2.deps jd.uuid artifacts))),
        scheduled := true, result := .ok () } := by
  simp only [JobTask.run, hcollect, hdrain]

/-- Witness for `jobtask_success_fanout`: a dependency-free task with
two downstream senders. -/
theorem jobtask_success_fanout_witness :
    JobTask.run ⟨5, []⟩ 2 [] (.ok ()) (.ok [⟨"x"⟩]) =
      { sends := [(0, Except.ok [(5, [⟨"x"⟩])]),
                  (1, Except.ok [(5, [⟨"x"⟩])])],
        scheduled := true, result := .ok () } :=
  jobtask_success_fanout ⟨5, []⟩ 2 [] ⟨[], []⟩ [] ⟨[], []⟩ [⟨"x"⟩] rfl rfl

/-- Helper: the collect loop short-circuits only with a non-empty error
map. -/
theorem collectLoop_shortCircuit_ne_nil (jd : JobDefinition)
    (msgs : List JobResult) (st : TaskState) (errs : ErrMap)
    (rest : List JobResult)
    (h : collectLoop jd st msgs = .shortCircuit errs rest) : errs ≠ [] := by
  induction msgs generalizing st with
  | nil =>
    unfold collectLoop at h
    by_cases hall : all_dependencies_are_in jd.dependencies st.deps = true
    · rw [if_pos hall] at h
      exact CollectOutcome.noConfusion h
    · rw [if_neg hall] at h
      by_cases hm : (missingDeps jd st).isEmpty = true
      · simp only [hm, if_true] at h
        exact CollectOutcome.noConfusion h
      · simp only [hm, if_false, Bool.false_eq_true] at h
        exact CollectOutcome.noConfusion h
  | cons msg tl ih =>
    unfold collectLoop at h
    split at h
    · exact CollectOutcome.noConfusion h
    · cases msg with
      | ok v =>
        simp only at h
        split at h
        · exact ih _ h
        · rename_i hne
          obtain ⟨he, -⟩ := CollectOutcome.shortCircuit.inj h
          rw [he] at hne
          intro hnil
          rw [hnil] at hne
          exact hne rfl
      | error e =>
        simp only at h
        split at h
        · exact ih _ h
        · rename_i hne
          obtain ⟨he, -⟩ := CollectOutcome.shortCircuit.inj h
          rw [he] at hne
          intro hnil
          rw [hnil] at hne
          exact hne rfl

/-- Claim C3 (amended): when the collect loop of `JobTask::run`
short-circuits — i.e. the received-errors map is non-empty right after
a receive performed while some dependency was still uncovered — the task
forwards `Err(received_errors)` to exactly one downstream sender (the
first), does not schedule its own job, and returns success.  (Errors
that arrive only after all dependencies are covered are absorbed by the
drain loop without a check, so they do not prevent scheduling; see the
counterexample.) -/
theorem jobtask_error_shortcircuit (jd : JobDefinition) (nSenders : Nat)
    (msgs : List JobResult) (errs : ErrMap) (rest : List JobResult)
    (prepResult : Except String Unit)
    (schedResult : Except JError (List Artifact))
    (h : collectLoop jd ⟨[], []⟩ msgs = .shortCircuit errs rest) :
    JobTask.run jd nSenders msgs prepResult schedResult =
      { sends := [(0, Except.error errs)], scheduled := false,
        result := .ok () }
    ∧ errs ≠ [] := by
  constructor
  · unfold JobTask.run
    rw [h]
  · exact collectLoop_shortCircuit_ne_nil jd msgs ⟨[], []⟩ errs rest h

/-- Witness for `jobtask_error_shortcircuit`: a task with one
uncovered dependency receiving one error message. -/
theorem jobtask_error_shortcircuit_witness :
    JobTask.run ⟨10, [1]⟩ 1 [.error [(2, "boom")]] (.ok ()) (.ok []) =
      { sends := [(0, Except.error [(2, "boom")])], scheduled := false,
        result := .ok () }
    ∧ [(2, "boom")] ≠ ([] : ErrMap) :=
  jobtask_error_shortcircuit ⟨10, [1]⟩ 1 [.error [(2, "boom")]]
    [(2, "boom")] [] (.ok ()) (.ok []) rfl

/-- Claim C3 counterexample: a task that depends on job 1, receives
`Ok` covering job 1 and then an error map from job 2: the error arrives
in the drain loop, the final pre-build state holds the non-empty error
map `[(2, "boom")]`, and yet the task schedules its job and forwards
`Ok` — no error is propagated, contradicting the claim that a task
receiving a non-empty error set never schedules. -/
theorem jobtask_drain_error_scheduled :
    (JobTask.run ⟨10, [1]⟩ 1 [.ok [(1, [⟨"a1"⟩])], .error [(2, "boom")]]
        (.ok ()) (.ok [⟨"a10"⟩])).scheduled = true
    ∧ JobTask.finalState ⟨10, [1]⟩ [.ok [(1, [⟨"a1"⟩])], .error [(2, "boom")]]
        = some ⟨[(1, [⟨"a1"⟩])], [(2, "boom")]⟩
    ∧ (JobTask.run ⟨10, [1]⟩ 1 [.ok [(1, [⟨"a1"⟩])], .error [(2, "boom")]]
        (.ok ()) (.ok [⟨"a10"⟩])).sends
      = [(0, Except.ok [(1, [⟨"a1"⟩]), (10, [⟨"a10"⟩])])] := by
  refine ⟨rfl, rfl, rfl⟩

/-- Witness for `env_pass_validator_cases` at a concrete environment
containing A. -/
theorem env_pass_validator_cases_witness :
    envAccepts (fun n => if n == "A" then some "val" else none) "A=B" = true
    ∧ (envAccepts (fun n => if n == "A" then some "val" else none) "A" = true
        ↔ ((fun n : String => if n == "A" then some "val" else none) "A").isSome
          = true)
    ∧ envAccepts (fun n => if n == "A" then some "val" else none) "A= " = false
    ∧ envAccepts (fun n => if n == "A" then some "val" else none) "A=B=C"
        = false :=
  env_pass_validator_cases (fun n => if n == "A" then some "val" else none)

/-- Witness for `env_pass_validator_trailing_eq` at a concrete
environment. -/
theorem env_pass_validator_trailing_eq_witness :
    envAccepts (fun _ => some "x") "BAD=" = true :=
  env_pass_validator_trailing_eq (fun _ => some "x")

/-- Witness for `run_job_env_assembly` at a concrete runnable. -/
theorem run_job_env_assembly_witness :
    (Endpoint.run_job ⟨⟨"img"⟩, "s", [JobResource.environment "K" "V"]⟩
        (.ok "c") (.ok ()) [] 0 (.ok [])).envs
      = envAssembly [JobResource.environment "K" "V"] :=
  (run_job_env_assembly ⟨⟨"img"⟩, "s", [JobResource.environment "K" "V"]⟩
    (.ok "c") (.ok ()) [] 0 (.ok [])).1

end Butido
